import Mathlib

/-!
Verification of the TextCase repository (src/textcase/change_case.py) against its
specification.  The Python source is embedded shallowly: one line of text is a
`List Char`, Python string methods become Lean functions on `List Char` (casing is
modelled on the ASCII range, which is where Python and Lean's `Char.toUpper` and
`Char.toLower` agree and which is the range the spec declares in scope), and the
file-rewriting procedure `convert_case` becomes a function from an explicit
file-system state to a result state plus an observable outcome.
-/

namespace TextCase

/-- View of a Lean string literal as the `List Char` representation used throughout. -/
def str (s : String) : List Char := s.data

/-- Characters removed by Python's default `str.strip()` in the ASCII range:
tab, LF, VT, FF, CR (9-13), the separator controls 28-31, and space (32). -/
def pyIsSpace (c : Char) : Bool :=
  decide (c.toNat = 32 ∨ (9 ≤ c.toNat ∧ c.toNat ≤ 13) ∨ (28 ≤ c.toNat ∧ c.toNat ≤ 31))

/-- Python `str.lstrip()` (ASCII whitespace): drop leading whitespace. -/
def pyStripLeft (l : List Char) : List Char := l.dropWhile pyIsSpace

/-- Python `str.rstrip()` (ASCII whitespace): drop trailing whitespace. -/
def pyStripRight (l : List Char) : List Char := l.rdropWhile pyIsSpace

/-- Python `str.strip()` (ASCII whitespace): drop whitespace from both ends. -/
def pyStrip (l : List Char) : List Char := pyStripLeft (pyStripRight l)

/-- Python `str.upper` on the ASCII range (`Char.toUpper` is ASCII-only, as is the spec's scope). -/
def pyUpper (l : List Char) : List Char := l.map Char.toUpper

/-- Python `str.lower` on the ASCII range. -/
def pyLower (l : List Char) : List Char := l.map Char.toLower

/-- Python `str.capitalize`: first character upper-cased, all remaining characters lower-cased. -/
def pyCapitalize : List Char → List Char
  | [] => []
  | c :: rest => c.toUpper :: rest.map Char.toLower

/-- State-passing core of Python `str.title` (ASCII): a cased (alphabetic) character is
upper-cased when the previous character was not cased and lower-cased otherwise. -/
def titleAux : Bool → List Char → List Char
  | _, [] => []
  | prevCased, c :: rest =>
      (if prevCased then c.toLower else c.toUpper) :: titleAux c.isAlpha rest

/-- Python `str.title` on the ASCII range. -/
def pyTitle (l : List Char) : List Char := titleAux false l

/-- Python `txt.split('. ')`: split on the literal two-character delimiter,
scanning left to right, non-overlapping. -/
def splitDotSpace : List Char → List (List Char)
  | [] => [[]]
  | '.' :: ' ' :: rest => [] :: splitDotSpace rest
  | c :: rest =>
      match splitDotSpace rest with
      | [] => [[c]]
      | s :: ss => (c :: s) :: ss

/-- Python `'. '.join(segments)`. -/
def joinDotSpace (segments : List (List Char)) : List Char :=
  List.intercalate (str ". ") segments

/-- Lines 78-83 of change_case.py: `completed_sentence` is true when
`txt.strip()[-1] == '.'`; the `IndexError` on an empty stripped string is caught
and leaves it false. -/
def completedSentence (txt : List Char) : Bool :=
  match (pyStrip txt).getLast? with
  | some c => c == '.'
  | none => false

/-- Body of the segment loop in `to_sentence_case` (lines 86-90): the
`continue_sentence` argument is consulted for every segment, and is never
reassigned inside the loop. -/
def caseSegment (continue_sentence : Bool) (segment : List Char) : List Char :=
  if continue_sentence then pyLower segment else pyCapitalize segment

/-- Model of `to_sentence_case(txt, continue_sentence)` (change_case.py lines 60-92):
returns `'. '.join(sentences).strip() + '\n'` together with `completed_sentence`. -/
def toSentenceCase (txt : List Char) (continue_sentence : Bool) : List Char × Bool :=
  (pyStrip (joinDotSpace ((splitDotSpace txt).map (caseSegment continue_sentence))) ++ ['\n'],
   completedSentence txt)

/-- Python text-mode line iteration (`for line in file`): split decoded content
into lines, each keeping its terminating newline; the final line may lack one. -/
def pySplitLines : List Char → List (List Char)
  | [] => []
  | '\n' :: rest => ['\n'] :: pySplitLines rest
  | c :: rest =>
      match pySplitLines rest with
      | [] => [[c]]
      | s :: ss => (c :: s) :: ss

/-- What the target file holds: either text that decodes under UTF-8 (the flat
character content of the file; reading iterates it via `pySplitLines`), or
bytes on which decoding raises `UnicodeDecodeError`. -/
inductive FileContent
  | text (chars : List Char)
  | binary (bytes : List Nat)
deriving DecidableEq

/-- The state of the one file `convert_case` touches, together with the
environment facts that decide each operating-system call: whether opening the
file for reading succeeds, whether the commit-time copy over the file is
permitted, whether some other `OSError` strikes while reading (before any write
to the target), and — because `shutil.copy` opens the target with `'wb'`
(truncating it) and then copies in chunks — whether an `OSError` strikes in the
middle of the commit copy, together with how many characters of the new content
had been written to the target when it does. -/
structure TargetFile where
  content : FileContent
  readable : Bool
  writable : Bool
  ioFault : Bool
  commitFault : Bool
  commitProgress : Nat
deriving DecidableEq

/-- Python exceptions that `convert_case` can let escape: neither is an `OSError`,
so neither is caught by its handlers. -/
inductive PyExc
  | unicodeDecodeError
  | keyError
deriving DecidableEq

/-- Observable result of a call to `convert_case`: normal return with no message,
normal return after printing an error message, or an uncaught exception. -/
inductive Outcome
  | ok
  | printed (msg : List Char)
  | uncaught (e : PyExc)
deriving DecidableEq

/-- A run of `convert_case`: the file state afterwards, the outcome, and whether
the source file was opened (any file access attempted). -/
structure ConvertResult where
  fs : TargetFile
  outcome : Outcome
  openedSource : Bool
deriving DecidableEq

/-- Python substring membership `needle in hay`, the test the source's
`assert char_case in 'ults'` performs. -/
def isSubstring (needle hay : List Char) : Bool := decide (needle <:+: hay)

/-- The sentence-mode loop of `convert_case` (lines 39-43): thread the
`is_mid_sentence` flag through `to_sentence_case` line by line. -/
def sentenceLines : Bool → List (List Char) → List (List Char)
  | _, [] => []
  | b, l :: rest =>
      let r := toSentenceCase l b
      r.1 :: sentenceLines r.2 rest

/-- The pure text transformation that the processing loop of `convert_case`
writes into the temporary file, for each of the four supported modes:
`'s'` threads `to_sentence_case`, the others map `methods[char_case]`
(`str.upper`, `str.lower`, `str.title`) over the lines. -/
def processLines (char_case : List Char) (lines : List (List Char)) : List (List Char) :=
  if char_case = str "s" then sentenceLines false lines
  else if char_case = str "u" then lines.map pyUpper
  else if char_case = str "l" then lines.map pyLower
  else lines.map pyTitle

/-- Model of the commit step `shutil.copy(temp_file.name, filename)`
(change_case.py lines 50-53) given the flat character content the temporary
file holds.  A `PermissionError` at the target `open` is caught by the inner
handler (line 52-53) before anything is written, leaving the target unchanged.
Otherwise the copy opens the target with `'wb'` — truncating it — and writes in
chunks, so an `OSError` striking mid-copy (caught by the outer handler at line
56) leaves the target holding only the prefix of the new content written so
far.  Only a fault-free copy replaces the content wholesale. -/
def commitCopy (f : TargetFile) (outChars : List Char) : ConvertResult :=
  if f.writable = false then
    ⟨f, .printed (str "is not writeable."), true⟩
  else if f.commitFault = true then
    ⟨{ f with content := .text (outChars.take f.commitProgress) }, .printed (str "Error:"), true⟩
  else
    ⟨{ f with content := .text outChars }, .ok, true⟩

/-- Model of `convert_case(filename, char_case)` (change_case.py lines 14-57).

The control flow follows the source: `assert char_case in 'ults'` is Python
substring membership, so the guard is `isSubstring`; an `AssertionError` is
caught and reported with no file access.  Otherwise a temporary file is created
and the source is opened: a failing `open` raises an `OSError` caught by the
outer handlers.  During the line loop a non-UTF-8 source raises
`UnicodeDecodeError` (not an `OSError`, hence uncaught), and
`methods[char_case]` raises `KeyError` (also uncaught) when `char_case` passed
the substring assert without being one of the four keys — provided at least one
line exists, since an empty file never runs the loop body.  All loop writes go
to the temporary file, so every pre-commit failure leaves the target unchanged;
only the final `shutil.copy`, modelled by `commitCopy` with its mid-copy fault
path, touches the target. -/
def convertCase (f : TargetFile) (char_case : List Char) : ConvertResult :=
  if isSubstring char_case (str "ults") = false then
    ⟨f, .printed (str "Error. Unsupported char_case option."), false⟩
  else if f.readable = false then
    ⟨f, .printed (str "Error:"), true⟩
  else if f.ioFault = true then
    ⟨f, .printed (str "Error:"), true⟩
  else
    match f.content with
    | .binary _ => ⟨f, .uncaught .unicodeDecodeError, true⟩
    | .text chars =>
        if char_case = str "s" ∨ char_case = str "u" ∨
            char_case = str "l" ∨ char_case = str "t" then
          commitCopy f ((processLines char_case (pySplitLines chars)).flatten)
        else if (pySplitLines chars).isEmpty then
          commitCopy f []
        else
          ⟨f, .uncaught .keyError, true⟩

/-- A readable, writable target file holding one ordinary line: the concrete
file used to exercise `convert_case` on particular modes. -/
def fPlain : TargetFile := ⟨FileContent.text (str "hello world\n"), true, true, false, false, 0⟩

/-- A readable, writable target file whose bytes do not decode under UTF-8. -/
def fBinaryFile : TargetFile := ⟨FileContent.binary [255], true, true, false, false, 0⟩

/-- A readable, writable target file on which an `OSError` strikes in the middle
of the commit copy, after 5 characters of the new content have been written. -/
def fMidFault : TargetFile := ⟨FileContent.text (str "hello world\n"), true, true, false, true, 5⟩

/-- Modelled from the spec sentence for claim C8: the cased segments joined back
with ". ", with trailing whitespace stripped (and only trailing whitespace
removed), followed by exactly one newline character. -/
def sentenceOutputRstripOnly (txt : List Char) (continue_sentence : Bool) : List Char :=
  pyStripRight (joinDotSpace ((splitDotSpace txt).map (caseSegment continue_sentence))) ++ ['\n']

/-- The amended reading of claim C8: the cased segments joined back with ". ",
with leading and trailing whitespace stripped, followed by exactly one newline. -/
def sentenceOutputStripBoth (txt : List Char) (continue_sentence : Bool) : List Char :=
  pyStrip (joinDotSpace ((splitDotSpace txt).map (caseSegment continue_sentence))) ++ ['\n']

example : toSentenceCase (str "hello world.") false = (str "Hello world.\n", true) := by decide

example :
    convertCase ⟨.text (str "ab\ncd"), true, true, false, false, 0⟩ (str "u")
      = ⟨⟨.text (str "AB\nCD"), true, true, false, false, 0⟩, .ok, true⟩ := by decide

theorem char_toNat_ofNat {n : Nat} (h : n < 55296) : (Char.ofNat n).toNat = n := by
  rw [Char.ofNat, dif_pos (Or.inl h)]
  rfl

theorem char_toUpper_toNat (c : Char) :
    c.toUpper.toNat = if 97 ≤ c.toNat ∧ c.toNat ≤ 122 then c.toNat - 32 else c.toNat := by
  rw [Char.toUpper]
  split
  · next h => rw [char_toNat_ofNat (by omega)]
  · next h => rfl

theorem char_toLower_toNat (c : Char) :
    c.toLower.toNat = if 65 ≤ c.toNat ∧ c.toNat ≤ 90 then c.toNat + 32 else c.toNat := by
  rw [Char.toLower]
  split
  · next h => rw [char_toNat_ofNat (by omega)]
  · next h => rfl

theorem char_toUpper_eq_self {c : Char} (h : ¬(97 ≤ c.toNat ∧ c.toNat ≤ 122)) :
    c.toUpper = c := by
  rw [Char.toUpper, if_neg h]

theorem char_toLower_eq_self {c : Char} (h : ¬(65 ≤ c.toNat ∧ c.toNat ≤ 90)) :
    c.toLower = c := by
  rw [Char.toLower, if_neg h]

theorem char_toUpper_toUpper (c : Char) : c.toUpper.toUpper = c.toUpper := by
  by_cases h : 97 ≤ c.toNat ∧ c.toNat ≤ 122
  · apply char_toUpper_eq_self
    rw [char_toUpper_toNat c, if_pos h]
    omega
  · simp only [char_toUpper_eq_self h]

theorem char_toLower_toLower (c : Char) : c.toLower.toLower = c.toLower := by
  by_cases h : 65 ≤ c.toNat ∧ c.toNat ≤ 90
  · apply char_toLower_eq_self
    rw [char_toLower_toNat c, if_pos h]
    omega
  · simp only [char_toLower_eq_self h]

theorem char_isAlpha_iff (c : Char) :
    c.isAlpha = true ↔ (65 ≤ c.toNat ∧ c.toNat ≤ 90) ∨ (97 ≤ c.toNat ∧ c.toNat ≤ 122) := by
  simp [Char.isAlpha, Char.isUpper, Char.isLower, Char.toNat, UInt32.le_def,
    BitVec.le_def, UInt32.toNat]

theorem char_isAlpha_toUpper (c : Char) : c.toUpper.isAlpha = c.isAlpha := by
  rw [Bool.eq_iff_iff, char_isAlpha_iff, char_isAlpha_iff, char_toUpper_toNat]
  split <;> omega

theorem char_isAlpha_toLower (c : Char) : c.toLower.isAlpha = c.isAlpha := by
  rw [Bool.eq_iff_iff, char_isAlpha_iff, char_isAlpha_iff, char_toLower_toNat]
  split <;> omega

theorem pyUpper_idem (l : List Char) : pyUpper (pyUpper l) = pyUpper l := by
  simp only [pyUpper, List.map_map]
  exact List.map_congr_left fun c _ => char_toUpper_toUpper c

theorem pyLower_idem (l : List Char) : pyLower (pyLower l) = pyLower l := by
  simp only [pyLower, List.map_map]
  exact List.map_congr_left fun c _ => char_toLower_toLower c

theorem titleAux_idem (b : Bool) (l : List Char) : titleAux b (titleAux b l) = titleAux b l := by
  induction l generalizing b with
  | nil => rfl
  | cons c rest ih =>
      cases b <;>
        simp [titleAux, char_toLower_toLower, char_toUpper_toUpper,
          char_isAlpha_toLower, char_isAlpha_toUpper, ih]

theorem pyTitle_idem (l : List Char) : pyTitle (pyTitle l) = pyTitle l :=
  titleAux_idem false l

theorem pyStrip_getLast? (l : List Char) :
    (pyStrip l).getLast? = (pyStripRight l).getLast? := by
  by_cases hr : pyStripRight l = []
  · rw [pyStrip, hr]
    rfl
  · have hlast : ¬ pyIsSpace ((pyStripRight l).getLast hr) = true :=
      List.rdropWhile_last_not pyIsSpace l hr
    have hne : pyStripLeft (pyStripRight l) ≠ [] := by
      intro h0
      rw [pyStripLeft, List.dropWhile_eq_nil_iff] at h0
      exact hlast (h0 _ (List.getLast_mem hr))
    obtain ⟨t, ht⟩ : pyStripLeft (pyStripRight l) <:+ pyStripRight l :=
      List.dropWhile_suffix pyIsSpace
    rw [pyStrip]
    conv_rhs => rw [← ht]
    rw [List.getLast?_append_of_ne_nil _ hne]

theorem processLines_nil (char_case : List Char) : processLines char_case [] = [] := by
  unfold processLines
  repeat' split <;> simp [sentenceLines]

/-- Claim C3: for every input line and carry-in boolean, the carry-out boolean of
`to_sentence_case` is true exactly when the line, after trimming trailing
whitespace, ends with a period; empty trimmed lines are a normal case (false). -/
theorem carry_out_iff_rstrip_ends_with_period (txt : List Char) (b : Bool) :
    (toSentenceCase txt b).2 = true ↔ (pyStripRight txt).getLast? = some '.' := by
  have h1 : (toSentenceCase txt b).2 = completedSentence txt := rfl
  rw [h1]
  unfold completedSentence
  rw [pyStrip_getLast?]
  rcases hx : (pyStripRight txt).getLast? with _ | c <;> simp [hx]

/-- Claim C10: the carry-out boolean of `to_sentence_case` depends only on the
line's text, never on the incoming state. -/
theorem carry_out_independent_of_carry_in (txt : List Char) (b1 b2 : Bool) :
    (toSentenceCase txt b1).2 = (toSentenceCase txt b2).2 := rfl

/-- Claim C4: the two lines "hello world" then "more text." in sentence mode with
initial state false give "Hello world\n" with carry-out false, then (carry-in
false) "More text.\n" — not lower-cased — with carry-out true. -/
theorem sentence_two_lines_example :
    toSentenceCase (str "hello world") false = (str "Hello world\n", false) ∧
    toSentenceCase (str "more text.") (toSentenceCase (str "hello world") false).2
      = (str "More text.\n", true) ∧
    sentenceLines false [str "hello world\n", str "more text.\n"]
      = [str "Hello world\n", str "More text.\n"] := by
  decide

/-- Claim C2 is false of the code: on "first sentence. second sentence" with
carry-in true, the second segment is not capitalized as a fresh sentence start. -/
theorem second_segment_not_fresh_counterexample :
    ¬ (toSentenceCase (str "first sentence. second sentence") true).1
        = str "first sentence. Second sentence\n" := by
  decide

/-- Claim C2 amended: the carried midSentence flag is consulted for every
segment (it is never reset inside a line), so with carry-in true every segment
is lower-cased; the input "first sentence. second sentence" with carry-in true
yields "first sentence. second sentence\n". -/
theorem carry_in_true_lowers_every_segment :
    (∀ txt : List Char,
      (toSentenceCase txt true).1
        = pyStrip (joinDotSpace ((splitDotSpace txt).map pyLower)) ++ ['\n']) ∧
    (toSentenceCase (str "first sentence. second sentence") true).1
      = str "first sentence. second sentence\n" := by
  refine ⟨fun txt => rfl, by decide⟩

/-- Claim C8 is false of the code: `'. '.join(sentences).strip()` also removes
leading whitespace, so on the line "  hello" the leading blanks are dropped. -/
theorem strip_not_only_trailing_counterexample :
    ¬ (toSentenceCase (str "  hello") false).1
        = sentenceOutputRstripOnly (str "  hello") false := by
  decide

/-- Claim C8 amended: the string returned by `to_sentence_case` equals the cased
segments joined back with ". ", with leading and trailing whitespace stripped,
followed by exactly one newline character. -/
theorem sentence_output_join_strip_newline (txt : List Char) (b : Bool) :
    (toSentenceCase txt b).1 = sentenceOutputStripBoth txt b := rfl

/-- Claim C7: for every file content and each of the modes upper, lower and
title, applying the conversion twice yields the same file content as applying
it once. -/
theorem upper_lower_title_idempotent (lines : List (List Char)) :
    processLines (str "u") (processLines (str "u") lines) = processLines (str "u") lines ∧
    processLines (str "l") (processLines (str "l") lines) = processLines (str "l") lines ∧
    processLines (str "t") (processLines (str "t") lines) = processLines (str "t") lines := by
  have hu : ∀ ls : List (List Char), processLines (str "u") ls = ls.map pyUpper := by
    intro ls
    unfold processLines
    rw [if_neg (by decide), if_pos rfl]
  have hl : ∀ ls : List (List Char), processLines (str "l") ls = ls.map pyLower := by
    intro ls
    unfold processLines
    rw [if_neg (by decide), if_neg (by decide), if_pos rfl]
  have ht : ∀ ls : List (List Char), processLines (str "t") ls = ls.map pyTitle := by
    intro ls
    unfold processLines
    rw [if_neg (by decide), if_neg (by decide), if_neg (by decide)]
  refine ⟨?_, ?_, ?_⟩
  · simp only [hu, List.map_map]
    exact List.map_congr_left fun l _ => pyUpper_idem l
  · simp only [hl, List.map_map]
    exact List.map_congr_left fun l _ => pyLower_idem l
  · simp only [ht, List.map_map]
    exact List.map_congr_left fun l _ => pyTitle_idem l

/-- Claim C1 is false of the code: `shutil.copy` opens the target with `'wb'`
(truncating it) and copies in chunks, so an `OSError` striking during the
commit — caught by the outer handler at change_case.py line 56 — leaves the
target partially overwritten: on "hello world\n" converted to upper case with a
fault after 5 characters, the file ends up holding "HELLO", which is neither
the original content nor the full transformation. -/
theorem commit_fault_partial_overwrite_counterexample :
    (convertCase fMidFault (str "u")).fs.content = FileContent.text (str "HELLO") ∧
    (convertCase fMidFault (str "u")).fs.content ≠ fMidFault.content ∧
    (convertCase fMidFault (str "u")).fs.content
      ≠ FileContent.text
          ((processLines (str "u") (pySplitLines (str "hello world\n"))).flatten) ∧
    (convertCase fMidFault (str "u")).outcome = Outcome.printed (str "Error:") := by
  decide

/-- Claim C1 amended: for every file state and every mode, `convert_case` either
leaves the target file's content exactly as it was (on every failure before the
commit copy begins — invalid mode, unreadable source, decode error, pre-commit
I/O fault — and on a `PermissionError` opening the target at commit time), or
replaces it with the full transformation of every line (on success), or — when
an `OSError` strikes during the commit copy itself, which is caught and
reported — leaves the target holding a prefix of the transformed content, i.e.
partially overwritten. -/
theorem target_unchanged_fully_replaced_or_commit_prefix
    (f : TargetFile) (char_case : List Char) :
    (convertCase f char_case).fs.content = f.content ∨
    (∃ chars, f.content = FileContent.text chars ∧
      (convertCase f char_case).fs.content
        = FileContent.text ((processLines char_case (pySplitLines chars)).flatten)) ∨
    (∃ chars, f.content = FileContent.text chars ∧
      (convertCase f char_case).outcome = Outcome.printed (str "Error:") ∧
      (convertCase f char_case).fs.content
        = FileContent.text
            (((processLines char_case (pySplitLines chars)).flatten).take f.commitProgress)) := by
  unfold convertCase commitCopy
  repeat' split
  all_goals try exact Or.inl rfl
  all_goals simp_all [List.isEmpty_iff, processLines_nil]

/-- Claim C5 fails on the code: `assert char_case in 'ults'` is a substring
test, so the unsupported mode "ul" passes it; the file is then opened and the
`methods[char_case]` lookup raises an uncaught `KeyError` on the first line. -/
theorem invalid_mode_ul_opens_file_and_raises :
    convertCase fPlain (str "ul")
      = ⟨fPlain, Outcome.uncaught PyExc.keyError, true⟩ := by
  decide

/-- Claim C6 is false of the code: a UTF-8 decode failure while reading the
source raises `UnicodeDecodeError`, which is not an `OSError` and escapes
`convert_case` uncaught. -/
theorem decode_failure_escapes_uncaught :
    (convertCase fBinaryFile (str "l")).outcome
      = Outcome.uncaught PyExc.unicodeDecodeError := by
  decide

theorem convertCase_content_eq_or_not_uncaught (f : TargetFile) (m : List Char) :
    (convertCase f m).fs.content = f.content ∨
    (convertCase f m).outcome = Outcome.ok ∨
    (convertCase f m).outcome = Outcome.printed (str "Error:") := by
  unfold convertCase commitCopy
  repeat' split
  all_goals simp

theorem convertCase_uncaught_of_valid (f : TargetFile) (m : List Char) (e : PyExc)
    (hm : m = str "s" ∨ m = str "u" ∨ m = str "l" ∨ m = str "t")
    (he : (convertCase f m).outcome = Outcome.uncaught e) :
    e = PyExc.unicodeDecodeError := by
  unfold convertCase commitCopy at he
  repeat' split at he
  all_goals simp_all

/-- Claim C6 amended: for the four recognized modes, every expected failure
except a UTF-8 decode failure is caught locally and reported; the only
exception that can escape `convert_case` is `UnicodeDecodeError`, and the
target file is unchanged when it does. -/
theorem valid_mode_only_decode_error_escapes
    (f : TargetFile) (m : List Char) (e : PyExc)
    (hm : m = str "u" ∨ m = str "l" ∨ m = str "t" ∨ m = str "s")
    (he : (convertCase f m).outcome = Outcome.uncaught e) :
    e = PyExc.unicodeDecodeError ∧ (convertCase f m).fs.content = f.content := by
  refine ⟨convertCase_uncaught_of_valid f m e (by tauto) he, ?_⟩
  rcases convertCase_content_eq_or_not_uncaught f m with h | h | h
  · exact h
  · rw [he] at h
    exact absurd h (by simp)
  · rw [he] at h
    exact absurd h (by simp)

/-- Witness for the amended claim C6 at a concrete undecodable file and mode 'l'. -/
theorem valid_mode_only_decode_error_escapes_witness :
    PyExc.unicodeDecodeError = PyExc.unicodeDecodeError ∧
      (convertCase fBinaryFile (str "l")).fs.content = fBinaryFile.content :=
  valid_mode_only_decode_error_escapes fBinaryFile (str "l") PyExc.unicodeDecodeError
    (Or.inr (Or.inl rfl)) (by decide)

end TextCase
